import Mathlib

/-!
Shallow embedding of the sandboxed code-execution service (`CodeRunner`).

The service file defines a class `CodeRunner` whose single instance is
exported at module level (`module.exports = new CodeRunner()`).  The
constructor builds ONE `vm2` VM whose sandbox object lives for the whole
process; `executeCode` dispatches on the language, `executeJavaScript`
rebinds the sandbox's `console` to a per-call capture array and runs the
code in the shared VM.  We embed:

* `JSValue`   — runtime values as observed by the value formatter;
* a store of sandbox globals (the persistent VM sandbox state);
* a deep embedding of the JavaScript fragment the proofs exercise
  (console.log calls, global assignment, identifier / typeof / literal
  expressions), evaluated against the persistent store — this models the
  host engine, which is not part of the repository;
* a JSON codec (model of the host `JSON.parse` / `JSON.stringify`);
* `executeCode`, the per-language executors, `formatOutput`, and the
  `formatCode` family, translated statement by statement from the source.

Machine integers do not occur on the paths that the claims exercise; the
wall-clock timestamps taken by `Date.now()` are passed in as explicit
naturals `t0`, `t1`.
-/

/-- Left brace character, kept out of string literals. -/
def lbrace : Char := Char.ofNat 123

/-- Right brace character, kept out of string literals. -/
def rbrace : Char := Char.ofNat 125

/-- Whitespace as matched by the JavaScript regex class `\s` (the inputs in
this development only use space, tab, newline and carriage return). -/
def isWsC (c : Char) : Bool :=
  c == ' ' || c == '\t' || c == '\n' || c == '\r'

/-- Runtime values as the service observes them.  Host objects are
represented by the two observations `formatOutput` can make of them: the
outcome of `JSON.stringify(value, null, 2)` (`none` when serialization
throws, e.g. on circular structures) and their default string conversion.
Functions carry their source text (their `String(..)` rendering). -/
inductive JSValue where
  | undef : JSValue
  | null : JSValue
  | bool (b : Bool) : JSValue
  | num (n : Int) : JSValue
  | str (s : String) : JSValue
  | obj (ser : Option String) (toStr : String) : JSValue
  | func (src : String) : JSValue

/-- Result of the JavaScript `typeof` operator on a value. -/
def typeofStr : JSValue → String
  | .undef => "undefined"
  | .null => "object"
  | .bool _ => "boolean"
  | .num _ => "number"
  | .str _ => "string"
  | .obj _ _ => "object"
  | .func _ => "function"

/-- Default string conversion `String(value)` of the host language. -/
def jsToString : JSValue → String
  | .undef => "undefined"
  | .null => "null"
  | .bool b => if b then "true" else "false"
  | .num n => toString n
  | .str s => s
  | .obj _ ts => ts
  | .func src => src

/-- Is the value `undefined`? -/
def isUndef : JSValue → Bool
  | .undef => true
  | _ => false

/-- Source `CodeRunner.formatOutput` (lines 265-276): `null` maps to the
literal string, `undefined` to the literal string, objects are serialized
with `JSON.stringify(value, null, 2)` falling back to `toString` when that
throws, and everything else goes through `String(value)`. -/
def formatOutput : JSValue → String
  | .null => "null"
  | .undef => "undefined"
  | .obj ser ts =>
    match ser with
    | some s => s
    | none => ts
  | v => jsToString v

/-- Console levels of the sandbox console object. -/
inductive Level where
  | log | error | warn | info | debug

/-- Join a list of strings with a separator, as `Array.prototype.join`. -/
def joinSep (sep : String) : List String → String
  | [] => ""
  | [s] => s
  | s :: s' :: rest => s ++ sep ++ joinSep sep (s' :: rest)

/-- Flatten the capture array, as `output.join` with a newline. -/
def joinNL (lines : List String) : String := joinSep "\n" lines

/-- The per-call console override installed by `executeJavaScript`
(source lines 165-171): plain `log` lines are the space-joined formatted
arguments, the other levels are prefixed with their tag. -/
def consoleLine : Level × List JSValue → String
  | (.log, args) => joinSep " " (args.map formatOutput)
  | (.error, args) => "ERROR: " ++ joinSep " " (args.map formatOutput)
  | (.warn, args) => "WARN: " ++ joinSep " " (args.map formatOutput)
  | (.info, args) => "INFO: " ++ joinSep " " (args.map formatOutput)
  | (.debug, args) => "DEBUG: " ++ joinSep " " (args.map formatOutput)

/-- The sandbox global bindings that user code can create or read: the
mutable part of the single long-lived VM sandbox. -/
abbrev Store := List (String × JSValue)

/-- Look a global up in the sandbox store. -/
def lookupVar (st : Store) (x : String) : Option JSValue :=
  match st with
  | [] => none
  | (y, v) :: rest => if y == x then some v else lookupVar rest x

/-- Bind a global in the sandbox store (assignment to an undeclared name
creates a property on the sandbox global object, as in sloppy mode). -/
def setVar (st : Store) (x : String) (v : JSValue) : Store :=
  match st with
  | [] => [(x, v)]
  | (y, w) :: rest => if y == x then (x, v) :: rest else (y, w) :: setVar rest x v

/-- Grammar of the JavaScript fragment used to exercise the
sandbox: string/number literals, identifiers, and `typeof x`. -/
inductive Expr where
  | strLit (s : String) : Expr
  | numLit (n : Int) : Expr
  | ident (x : String) : Expr
  | typeofE (x : String) : Expr

/-- Statements of the fragment: `console.log(e)`, global assignment
`x = e`, and bare expression statements. -/
inductive Stmt where
  | logS (e : Expr) : Stmt
  | assign (x : String) (e : Expr) : Stmt
  | exprS (e : Expr) : Stmt

/-- First character of an identifier. -/
def identStart (c : Char) : Bool := c.isAlpha || c == '_' || c == '$'

/-- Subsequent character of an identifier. -/
def identChar (c : Char) : Bool := c.isAlphanum || c == '_' || c == '$'

/-- Digit list to a natural number. -/
def digitsToNat (l : List Char) : Nat :=
  l.foldl (fun a c => 10 * a + (c.toNat - 48)) 0

/-- Strip an expected literal character sequence from the front. -/
def stripPrefixL : List Char → List Char → Option (List Char)
  | [], l => some l
  | _ :: _, [] => none
  | p :: ps, c :: cs => if p == c then stripPrefixL ps cs else none

/-- Lex one identifier. -/
def takeIdentL : List Char → Option (String × List Char)
  | [] => none
  | c :: rest =>
    if identStart c then
      some (⟨c :: rest.takeWhile identChar⟩, rest.dropWhile identChar)
    else none

/-- Parse one expression of the fragment. -/
def parseExprL (l : List Char) : Option (Expr × List Char) :=
  match l with
  | [] => none
  | c :: rest =>
    if c == '"' then
      let s := rest.takeWhile (fun d => !(d == '"'))
      match rest.dropWhile (fun d => !(d == '"')) with
      | _ :: r' => some (.strLit ⟨s⟩, r')
      | [] => none
    else if c.isDigit then
      some (.numLit (Int.ofNat (digitsToNat ((c :: rest).takeWhile Char.isDigit))),
            (c :: rest).dropWhile Char.isDigit)
    else
      match takeIdentL l with
      | some (name, r) =>
        if name == "typeof" then
          match takeIdentL (r.dropWhile isWsC) with
          | some (x, r') => some (.typeofE x, r')
          | none => none
        else some (.ident name, r)
      | none => none

/-- Parse one statement of the fragment (input already trimmed left). -/
def parseStmtL (l : List Char) : Option (Stmt × List Char) :=
  match stripPrefixL "console.log".data l with
  | some r =>
    (match (r.dropWhile isWsC) with
     | '(' :: r2 =>
       match parseExprL (r2.dropWhile isWsC) with
       | some (e, r3) =>
         (match r3.dropWhile isWsC with
          | ')' :: r4 => some (.logS e, r4)
          | _ => none)
       | none => none
     | _ => none)
  | none =>
    match takeIdentL l with
    | some (x, r) =>
      (match r.dropWhile isWsC with
       | '=' :: r2 =>
         match parseExprL (r2.dropWhile isWsC) with
         | some (e, r3) => some (.assign x e, r3)
         | none => none
       | _ =>
         match parseExprL l with
         | some (e, r') => some (.exprS e, r')
         | none => none)
    | none =>
      match parseExprL l with
      | some (e, r') => some (.exprS e, r')
      | none => none

/-- Parse a `;`-separated statement list; the fuel bounds the number of
statements and is instantiated with the input length plus one. -/
def parseProgL : Nat → List Char → Option (List Stmt)
  | 0, _ => none
  | fuel + 1, l =>
    match l.dropWhile isWsC with
    | [] => some []
    | l1 =>
      match parseStmtL l1 with
      | some (s, r) =>
        (match r.dropWhile isWsC with
         | [] => some [s]
         | ';' :: r2 =>
           match parseProgL fuel r2 with
           | some ss => some (s :: ss)
           | none => none
         | _ => none)
      | none => none

/-- Outcome of one engine run: the sandbox store after the run (mutations
made before a fault persist in the shared VM), the console events emitted,
and either the script completion value or the thrown error message. -/
structure EngineOut where
  store : Store
  events : List (Level × List JSValue)
  res : Except String JSValue

/-- Evaluate an expression against the store.  Reading an unbound
identifier throws a `ReferenceError`; `typeof` never throws. -/
def evalExpr (st : Store) : Expr → Except String JSValue
  | .strLit s => .ok (.str s)
  | .numLit n => .ok (.num n)
  | .ident x =>
    match lookupVar st x with
    | some v => .ok v
    | none => .error (x ++ " is not defined")
  | .typeofE x =>
    match lookupVar st x with
    | some v => .ok (.str (typeofStr v))
    | none => .ok (.str "undefined")

/-- Run the statements in order, accumulating console events and the
completion value (the value of the last value-producing statement; a
`console.log` call completes with `undefined`). -/
def runStmts (st : Store) (evs : List (Level × List JSValue)) (last : JSValue) :
    List Stmt → EngineOut
  | [] => ⟨st, evs, .ok last⟩
  | s :: rest =>
    match s with
    | .logS e =>
      (match evalExpr st e with
       | .ok v => runStmts st (evs ++ [(.log, [v])]) .undef rest
       | .error m => ⟨st, evs, .error m⟩)
    | .assign x e =>
      (match evalExpr st e with
       | .ok v => runStmts (setVar st x v) evs v rest
       | .error m => ⟨st, evs, .error m⟩)
    | .exprS e =>
      (match evalExpr st e with
       | .ok v => runStmts st evs v rest
       | .error m => ⟨st, evs, .error m⟩)

/-- Model of `this.vm.run(code)` on the embedded fragment: parse, then run
against the persistent sandbox store.  A parse failure is the engine's
`SyntaxError`. -/
def vmRun (st : Store) (code : String) : EngineOut :=
  match parseProgL (code.data.length + 1) code.data with
  | some stmts => runStmts st [] .undef stmts
  | none => ⟨st, [], .error "Unexpected token"⟩

/-- JSON values, the model of the host structured-data codec. -/
inductive JValue where
  | jnull : JValue
  | jbool (b : Bool) : JValue
  | jnum (n : Int) : JValue
  | jstr (s : String) : JValue
  | jarr (xs : List JValue) : JValue
  | jobj (fs : List (String × JValue)) : JValue

/-- Whitespace accepted between JSON tokens. -/
def jsonWs (c : Char) : Bool :=
  c == ' ' || c == '\t' || c == '\n' || c == '\r'

/-- Parser error message for an unexpected character. -/
def jBadTok (c : Char) : String := "Unexpected token " ++ ⟨[c]⟩ ++ " in JSON"

/-- Parser error message for truncated input. -/
def jEndMsg : String := "Unexpected end of JSON input"

/-- Lex a JSON string body after the opening quote (the model codec does
not interpret escape sequences). -/
def jtakeString (l : List Char) : Except String (String × List Char) :=
  match l.dropWhile (fun d => !(d == '"')) with
  | _ :: r' => .ok (⟨l.takeWhile (fun d => !(d == '"'))⟩, r')
  | [] => .error jEndMsg

/-- Lex an unsigned JSON integer literal starting with digit `c`. -/
def jtakeNum (c : Char) (rest : List Char) : Int × List Char :=
  (Int.ofNat (digitsToNat ((c :: rest).takeWhile Char.isDigit)),
   (c :: rest).dropWhile Char.isDigit)

/-- Pending container frames of the JSON parser. -/
inductive JCtx where
  | arr (acc : List JValue) : JCtx
  | obj (acc : List (String × JValue)) (key : String) : JCtx

/-- One-pass stack-machine JSON parser.  `cur = none` means a value is
expected next; `cur = some v` means `v` was just completed and the
enclosing frame (if any) consumes the following separator.  Every step
consumes input or pops a frame, so fuel `2 * length + 2` suffices. -/
def jgo : Nat → Option JValue → List Char → List JCtx → Except String JValue
  | 0, _, _, _ => .error jEndMsg
  | fuel + 1, none, l, stk =>
    (match l.dropWhile jsonWs with
     | [] => .error jEndMsg
     | c :: rest =>
       if c == '[' then
         match rest.dropWhile jsonWs with
         | ']' :: r3 => jgo fuel (some (.jarr [])) r3 stk
         | _ => jgo fuel none rest (JCtx.arr [] :: stk)
       else if c == lbrace then
         match rest.dropWhile jsonWs with
         | [] => .error jEndMsg
         | c2 :: r3 =>
           if c2 == rbrace then jgo fuel (some (.jobj [])) r3 stk
           else if c2 == '"' then
             match jtakeString r3 with
             | .error m => .error m
             | .ok (key, r4) =>
               match r4.dropWhile jsonWs with
               | ':' :: r5 => jgo fuel none r5 (JCtx.obj [] key :: stk)
               | [] => .error jEndMsg
               | c3 :: _ => .error (jBadTok c3)
           else .error (jBadTok c2)
       else if c == '"' then
         match jtakeString rest with
         | .error m => .error m
         | .ok (s, r') => jgo fuel (some (.jstr s)) r' stk
       else if c == 'n' then
         match stripPrefixL "ull".data rest with
         | some r' => jgo fuel (some .jnull) r' stk
         | none => .error (jBadTok c)
       else if c == 't' then
         match stripPrefixL "rue".data rest with
         | some r' => jgo fuel (some (.jbool true)) r' stk
         | none => .error (jBadTok c)
       else if c == 'f' then
         match stripPrefixL "alse".data rest with
         | some r' => jgo fuel (some (.jbool false)) r' stk
         | none => .error (jBadTok c)
       else if c == '-' then
         match rest with
         | d :: rest2 =>
           if d.isDigit then
             let (n, r') := jtakeNum d rest2
             jgo fuel (some (.jnum (-n))) r' stk
           else .error (jBadTok c)
         | [] => .error jEndMsg
       else if c.isDigit then
         let (n, r') := jtakeNum c rest
         jgo fuel (some (.jnum n)) r' stk
       else .error (jBadTok c))
  | fuel + 1, some v, l, stk =>
    (match stk with
     | [] =>
       (match l.dropWhile jsonWs with
        | [] => .ok v
        | c :: _ => .error (jBadTok c))
     | JCtx.arr acc :: stk' =>
       (match l.dropWhile jsonWs with
        | ',' :: rest => jgo fuel none rest (JCtx.arr (acc ++ [v]) :: stk')
        | ']' :: rest => jgo fuel (some (.jarr (acc ++ [v]))) rest stk'
        | [] => .error jEndMsg
        | c :: _ => .error (jBadTok c))
     | JCtx.obj acc key :: stk' =>
       (match l.dropWhile jsonWs with
        | ',' :: rest =>
          (match rest.dropWhile jsonWs with
           | '"' :: r3 =>
             match jtakeString r3 with
             | .error m => .error m
             | .ok (key2, r4) =>
               match r4.dropWhile jsonWs with
               | ':' :: r5 => jgo fuel none r5 (JCtx.obj (acc ++ [(key, v)]) key2 :: stk')
               | [] => .error jEndMsg
               | c3 :: _ => .error (jBadTok c3)
           | [] => .error jEndMsg
           | c2 :: _ => .error (jBadTok c2))
        | [] => .error jEndMsg
        | c :: rest =>
          if c == rbrace then jgo fuel (some (.jobj (acc ++ [(key, v)]))) rest stk'
          else .error (jBadTok c))
     )

/-- Model of the host `JSON.parse`. -/
def jsonParse (code : String) : Except String JValue :=
  jgo (2 * code.data.length + 2) none code.data []

/-- Escape one character for JSON string output. -/
def jescChar (c : Char) : String :=
  if c == '"' then "\\\""
  else if c == '\\' then "\\\\"
  else if c == '\n' then "\\n"
  else if c == '\t' then "\\t"
  else if c == '\r' then "\\r"
  else ⟨[c]⟩

/-- Quote a string for JSON output. -/
def jquote (s : String) : String :=
  "\"" ++ joinSep "" (s.data.map jescChar) ++ "\""

/-- Indentation of `2 * d` spaces. -/
def jpad (d : Nat) : String := ⟨List.replicate (2 * d) ' '⟩

/-- Fueled renderer behind `jstringify`; the fuel dominates the nesting
depth, so `sizeOf` of the value is always enough. -/
def jstringifyF : Nat → Nat → JValue → String
  | 0, _, _ => ""
  | fuel + 1, d, v =>
    match v with
    | .jnull => "null"
    | .jbool b => if b then "true" else "false"
    | .jnum n => toString n
    | .jstr s => jquote s
    | .jarr [] => "[]"
    | .jarr (x :: xs) =>
      "[\n" ++
      joinSep ",\n" ((x :: xs).map (fun y => jpad (d + 1) ++ jstringifyF fuel (d + 1) y)) ++
      "\n" ++ jpad d ++ "]"
    | .jobj [] => "\x7b\x7d"
    | .jobj (f :: fs) =>
      "\x7b\n" ++
      joinSep ",\n" ((f :: fs).map
        (fun kv => jpad (d + 1) ++ jquote kv.1 ++ ": " ++ jstringifyF fuel (d + 1) kv.2)) ++
      "\n" ++ jpad d ++ "\x7d"

/-- Model of the host `JSON.stringify(v, null, 2)`.  The fuel bounds the
nesting depth; every caller in this file passes the length of the source
text the value was parsed from plus one, which dominates the depth because
each nesting level consumes at least one input character. -/
def jstringify (fuel : Nat) (v : JValue) : String := jstringifyF fuel 0 v

set_option linter.unusedVariables false in
/-- Source `executeJavaScript` (lines 161-182): rebind the sandbox console
to a fresh per-call capture array, run the code in the shared VM, then
append the formatted completion value when it is not `undefined`.  On an
engine throw, the capture array — local to this function — is abandoned
and only the error propagates; mutations of sandbox globals made before
the throw persist in the shared VM. -/
def executeJavaScript (st : Store) (code input : String) :
    Store × Except String (List String) :=
  let eo := vmRun st code
  match eo.res with
  | .ok v =>
    (eo.store, .ok (eo.events.map consoleLine ++ if isUndef v then [] else [formatOutput v]))
  | .error m => (eo.store, .error m)

/-- Characters of the regex class `[a-zA-Z<>\[\]{}|&]` used by the type
annotation strip. -/
def isTypeChar (c : Char) : Bool :=
  c.isAlpha || c == '<' || c == '>' || c == '[' || c == ']' ||
  c == lbrace || c == rbrace || c == '|' || c == '&'

/-- Word character of the regex class `\w`. -/
def isWordC (c : Char) : Bool := c.isAlphanum || c == '_'

/-- Global replace of `:\s*[a-zA-Z<>\[\]{}|&]+` by the empty string. -/
def stripAnnot : Nat → List Char → List Char
  | 0, l => l
  | _ + 1, [] => []
  | fuel + 1, c :: rest =>
    if c == ':' then
      let r2 := rest.dropWhile isWsC
      if (r2.takeWhile isTypeChar).isEmpty then c :: stripAnnot fuel rest
      else stripAnnot fuel (r2.dropWhile isTypeChar)
    else c :: stripAnnot fuel rest

/-- Attempt the regex `interface\s+\w+\s*{[^}]*}` at the current position,
returning the rest of the input on success. -/
def matchInterfaceAt (l : List Char) : Option (List Char) :=
  match stripPrefixL "interface".data l with
  | none => none
  | some r1 =>
    if (r1.takeWhile isWsC).isEmpty then none
    else
      let r2 := r1.dropWhile isWsC
      if (r2.takeWhile isWordC).isEmpty then none
      else
        match (r2.dropWhile isWordC).dropWhile isWsC with
        | c :: r5 =>
          if c == lbrace then
            match r5.dropWhile (fun d => !(d == rbrace)) with
            | _ :: r7 => some r7
            | [] => none
          else none
        | [] => none

/-- Global replace of `interface\s+\w+\s*{[^}]*}` by the empty string. -/
def stripInterfaces : Nat → List Char → List Char
  | 0, l => l
  | _ + 1, [] => []
  | fuel + 1, c :: rest =>
    match matchInterfaceAt (c :: rest) with
    | some r => stripInterfaces fuel r
    | none => c :: stripInterfaces fuel rest

/-- Attempt the regex `type\s+\w+\s*=\s*[^;]+;` at the current position. -/
def matchTypeAliasAt (l : List Char) : Option (List Char) :=
  match stripPrefixL "type".data l with
  | none => none
  | some r1 =>
    if (r1.takeWhile isWsC).isEmpty then none
    else
      let r2 := r1.dropWhile isWsC
      if (r2.takeWhile isWordC).isEmpty then none
      else
        match (r2.dropWhile isWordC).dropWhile isWsC with
        | '=' :: r5 =>
          let r6 := r5.dropWhile isWsC
          if (r6.takeWhile (fun d => !(d == ';'))).isEmpty then none
          else
            match r6.dropWhile (fun d => !(d == ';')) with
            | _ :: r8 => some r8
            | [] => none
        | _ => none

/-- Global replace of `type\s+\w+\s*=\s*[^;]+;` by the empty string. -/
def stripTypeAliases : Nat → List Char → List Char
  | 0, l => l
  | _ + 1, [] => []
  | fuel + 1, c :: rest =>
    match matchTypeAliasAt (c :: rest) with
    | some r => stripTypeAliases fuel r
    | none => c :: stripTypeAliases fuel rest

/-- Global replace of `<[^>]*>` by the empty string. -/
def stripGenerics : Nat → List Char → List Char
  | 0, l => l
  | _ + 1, [] => []
  | fuel + 1, c :: rest =>
    if c == '<' then
      match rest.dropWhile (fun d => !(d == '>')) with
      | _ :: r' => stripGenerics fuel r'
      | [] => c :: stripGenerics fuel rest
    else c :: stripGenerics fuel rest

/-- Substring test, as `String.prototype.includes`. -/
def startsWithL : List Char → List Char → Bool
  | [], _ => true
  | _ :: _, [] => false
  | p :: ps, c :: cs => p == c && startsWithL ps cs

/-- Does `sub` occur in `l`? -/
def isInfixL (sub : List Char) : List Char → Bool
  | [] => sub.isEmpty
  | c :: rest => startsWithL sub (c :: rest) || isInfixL sub rest

/-- Substring containment test `code.includes(sub)`. -/
def includesSub (code sub : String) : Bool := isInfixL sub.data code.data

/-- The four textual rewrites of `executeTypeScript` (source lines
191-195), applied in source order. -/
def tsTransform (code : String) : String :=
  let l1 := stripAnnot (code.data.length + 1) code.data
  let l2 := stripInterfaces (l1.length + 1) l1
  let l3 := stripTypeAliases (l2.length + 1) l2
  ⟨stripGenerics (l3.length + 1) l3⟩

/-- Source `executeTypeScript` (lines 184-204): when the code mentions
`interface`, `type` or contains a `:`, apply the textual strip before
delegating to the JavaScript executor; any error is rethrown wrapped. -/
def executeTypeScript (st : Store) (code input : String) :
    Store × Except String (List String) :=
  let r :=
    if includesSub code "interface" || includesSub code "type" || includesSub code ":" then
      executeJavaScript st (tsTransform code) input
    else
      executeJavaScript st code input
  match r with
  | (st', .ok lines) => (st', .ok lines)
  | (st', .error m) => (st', .error ("TypeScript execution failed: " ++ m))

/-- Source `executePython` (lines 206-213): deterministic stub. -/
def executePython (code input : String) : List String :=
  ["Python execution is not yet implemented in this demo version.",
   "Code received:",
   code,
   "Input received: " ++ input]

/-- Source `executeHTML` (lines 215-225). -/
def executeHTML (code : String) : List String :=
  ["HTML Preview:", "```html", code, "```", "",
   "Note: This is a preview. To see the rendered result, copy the HTML to a file and open it in a browser."]

/-- Source `executeCSS` (lines 227-237). -/
def executeCSS (code : String) : List String :=
  ["CSS Code:", "```css", code, "```", "",
   "Note: This is a preview. To see the rendered result, copy the CSS to a file and link it to an HTML document."]

/-- Source `executeJSON` (lines 239-251): parse, re-serialize indented on
success; wrap the parser message with the `Invalid JSON: ` prefix on
failure. -/
def executeJSON (code : String) : Except String (List String) :=
  match jsonParse code with
  | .ok v => .ok ["Valid JSON:", "```json", jstringify (code.data.length + 1) v, "```"]
  | .error m => .error ("Invalid JSON: " ++ m)

/-- Source `executeMarkdown` (lines 253-263). -/
def executeMarkdown (code : String) : List String :=
  ["Markdown Preview:", "```markdown", code, "```", "",
   "Note: This is a preview. To see the rendered result, copy the markdown to a file and open it in a markdown viewer."]

/-- The closed language enumeration handled by the dispatch switch. -/
inductive Lang where
  | javascript | typescript | python | html | css | json | markdown
deriving DecidableEq

/-- Configuration `this.maxCodeLength` with its default of 10 000. -/
def maxCodeLength : Nat := 10000

/-- The result object built by `executeCode`: field names follow the
source; `executionTime` is the string `` `${executionTime}ms` ``. -/
structure ExecutionResult where
  output : String
  error : Option String
  executionTime : String
  language : Lang
  success : Bool
deriving DecidableEq

/-- Source `executeCode` (lines 100-159).  `st` is the sandbox store of
the long-lived VM held by the module-level singleton; the returned store
is what the next call on the singleton starts from.  `t0` and `t1` are the
`Date.now()` readings at entry and at result assembly.  The outer capture
variable `output` is initialised to the empty array and only assigned on a
successful strategy return, so the catch branch always joins the empty
array. -/
def executeCode (st : Store) (t0 t1 : Nat) (code : String) (language : Lang)
    (input : String) : Store × ExecutionResult :=
  let elapsed := toString (t1 - t0) ++ "ms"
  if code.length > maxCodeLength then
    (st, ⟨"", some ("Code too long. Maximum allowed: " ++ toString maxCodeLength ++ " characters"),
          elapsed, language, false⟩)
  else
    match language with
    | .javascript =>
      (match executeJavaScript st code input with
       | (st', .ok lines) => (st', ⟨joinNL lines, none, elapsed, language, true⟩)
       | (st', .error m) => (st', ⟨joinNL [], some m, elapsed, language, false⟩))
    | .typescript =>
      (match executeTypeScript st code input with
       | (st', .ok lines) => (st', ⟨joinNL lines, none, elapsed, language, true⟩)
       | (st', .error m) => (st', ⟨joinNL [], some m, elapsed, language, false⟩))
    | .python => (st, ⟨joinNL (executePython code input), none, elapsed, language, true⟩)
    | .html => (st, ⟨joinNL (executeHTML code), none, elapsed, language, true⟩)
    | .css => (st, ⟨joinNL (executeCSS code), none, elapsed, language, true⟩)
    | .json =>
      (match executeJSON code with
       | .ok lines => (st, ⟨joinNL lines, none, elapsed, language, true⟩)
       | .error m => (st, ⟨joinNL [], some m, elapsed, language, false⟩))
    | .markdown => (st, ⟨joinNL (executeMarkdown code), none, elapsed, language, true⟩)

/-- Remove leading whitespace, as in `String.prototype.trim`. -/
def trimLeftL (l : List Char) : List Char := l.dropWhile isWsC

/-- Remove trailing whitespace. -/
def trimRightL (l : List Char) : List Char := (l.reverse.dropWhile isWsC).reverse

/-- Whitespace trim at both ends, as `code.trim()`. -/
def strTrim (s : String) : String := ⟨trimLeftL (trimRightL s.data)⟩

/-- Suffix test `s.endsWith(c)` for a one-character suffix. -/
def strEndsWith1 (s : String) (c : Char) : Bool := s.data.getLast? == some c

/-- The result object of the `formatCode` family. -/
structure FormatResult where
  code : String
  changes : List String
deriving DecidableEq

/-- Source `formatJavaScript` (lines 426-438): append a semicolon when the
trimmed code ends neither with `;` nor with a closing brace. -/
def formatJavaScript (code : String) : FormatResult :=
  if !strEndsWith1 (strTrim code) ';' && !strEndsWith1 (strTrim code) rbrace then
    ⟨code ++ ";", ["Added missing semicolon"]⟩
  else ⟨code, []⟩

/-- Source `formatJSON` (lines 440-448): strict parse then canonical
indented re-serialization; the thrown error carries the prefixed parser
message. -/
def formatJSON (code : String) : Except String FormatResult :=
  match jsonParse code with
  | .ok v => .ok ⟨jstringify (code.data.length + 1) v, ["Formatted JSON with proper indentation"]⟩
  | .error m => .error ("Invalid JSON: " ++ m)

/-- Global replace of `>\s*<` by `>\n<` (source line 456). -/
def htmlRep : Nat → List Char → List Char
  | 0, l => l
  | _ + 1, [] => []
  | fuel + 1, c :: rest =>
    if c == '>' then
      match rest.dropWhile isWsC with
      | '<' :: r' => '>' :: '\n' :: '<' :: htmlRep fuel r'
      | _ => c :: htmlRep fuel rest
    else c :: htmlRep fuel rest

/-- Source `formatHTML` (lines 450-459). -/
def formatHTML (code : String) : FormatResult :=
  ⟨⟨htmlRep (code.data.length + 1) code.data⟩, ["Added line breaks between HTML tags"]⟩

/-- Global replace of `{\s*` by a space, the brace and an indented new
line (source line 467). -/
def cssRep1 : Nat → List Char → List Char
  | 0, l => l
  | _ + 1, [] => []
  | fuel + 1, c :: rest =>
    if c == lbrace then
      ' ' :: lbrace :: '\n' :: ' ' :: ' ' :: cssRep1 fuel (rest.dropWhile isWsC)
    else c :: cssRep1 fuel rest

/-- Global replace of `;\s*}` by `;`, newline, brace (source line 468). -/
def cssRep2 : Nat → List Char → List Char
  | 0, l => l
  | _ + 1, [] => []
  | fuel + 1, c :: rest =>
    if c == ';' then
      match rest.dropWhile isWsC with
      | c2 :: r3 =>
        if c2 == rbrace then ';' :: '\n' :: rbrace :: cssRep2 fuel r3
        else ';' :: cssRep2 fuel rest
      | [] => ';' :: cssRep2 fuel rest
    else c :: cssRep2 fuel rest

/-- Source `formatCSS` (lines 461-471). -/
def formatCSS (code : String) : FormatResult :=
  let l1 := cssRep1 (code.data.length + 1) code.data
  ⟨⟨cssRep2 (l1.length + 1) l1⟩, ["Added proper CSS formatting"]⟩

/-- Source `formatCode` (lines 407-424): dispatch; only the JSON branch
can fail, and its error is rethrown with the `Code formatting failed: `
prefix.  All unlisted languages are the identity transform. -/
def formatCode (code : String) : Lang → Except String FormatResult
  | .javascript => .ok (formatJavaScript code)
  | .json =>
    (match formatJSON code with
     | .ok r => .ok r
     | .error m => .error ("Code formatting failed: " ++ m))
  | .html => .ok (formatHTML code)
  | .css => .ok (formatCSS code)
  | _ => .ok ⟨code, []⟩

/-- Spec wording: is the value null-like? -/
def isNullLike : JSValue → Bool
  | .null => true
  | _ => false

/-- Spec wording: is the value absent/undefined-like? -/
def isUndefinedLike : JSValue → Bool
  | .undef => true
  | _ => false

/-- Spec wording: is the value structured (object/array-like)? -/
def isStructured : JSValue → Bool
  | .obj _ _ => true
  | _ => false

/-- Spec wording: the indented structured-data serialization of a
structured value, when it is serializable. -/
def serializeIndented : JSValue → Option String
  | .obj ser _ => ser
  | _ => none

/-- Modelled from the spec (section 4.2 Value Formatter): `null`-like maps
to the literal `"null"`, absent/undefined-like to `"undefined"`,
structured values to their indented serialization when serializable and
otherwise to their default string conversion, everything else to direct
string coercion. -/
def formatOutputSpec (v : JSValue) : String :=
  if isNullLike v then "null"
  else if isUndefinedLike v then "undefined"
  else if isStructured v then
    match serializeIndented v with
    | some s => s
    | none => jsToString v
  else jsToString v

/-- Is the string a bare decimal integer numeral? -/
def isDigitsOnly (s : String) : Bool := !s.data.isEmpty && s.data.all Char.isDigit

/-- A code string exceeding the default `maxCodeLength` of 10 000. -/
def longCode : String := ⟨List.replicate 10001 'a'⟩

/-- Dropping leading whitespace never loses a trailing semicolon. -/
theorem dropWhile_ws_concat_getLast (l : List Char) :
    ((l ++ [';']).dropWhile isWsC).getLast? = some ';' := by
  induction l with
  | nil => rfl
  | cons a t ih =>
    rw [List.cons_append, List.dropWhile_cons]
    by_cases h : isWsC a
    · simpa [h] using ih
    · simp only [h, Bool.false_eq_true, if_false]
      rw [← List.cons_append, List.getLast?_concat]

/-- Right-trimming is the identity on a string ending in a semicolon. -/
theorem trimRightL_concat_semi (l : List Char) : trimRightL (l ++ [';']) = l ++ [';'] := by
  have h : isWsC ';' = false := rfl
  simp [trimRightL, List.reverse_append, List.dropWhile_cons, h]

/-- After appending a semicolon, the trimmed string ends in a semicolon. -/
theorem strTrim_append_semi_endsWith (s : String) :
    strEndsWith1 (strTrim (s ++ ";")) ';' = true := by
  show ((trimLeftL (trimRightL (s ++ ";").data)).getLast? == some ';') = true
  rw [String.data_append]
  show ((trimLeftL (trimRightL (s.data ++ [';']))).getLast? == some ';') = true
  rw [trimRightL_concat_semi]
  unfold trimLeftL
  rw [dropWhile_ws_concat_getLast]
  rfl

/-- Appending a semicolon changes the string. -/
theorem append_semi_ne (s : String) : s ++ ";" ≠ s := by
  intro heq
  have hl := congrArg String.length heq
  rw [String.length_append] at hl
  have h1 : (";" : String).length = 1 := rfl
  omega

/-- C1: the determinism claim fails on the code.  The module-level
singleton keeps one long-lived VM, so a global written by the first
Execute call is visible to the second: two Execute calls with the
identical request `(console.log(typeof x); x = 1, javascript, "")` return
different `output` (`undefined\n1`, then `number\n1`) although both
succeed. -/
theorem c1_execute_not_deterministic_across_calls :
    (executeCode [] 0 0 "console.log(typeof x); x = 1" Lang.javascript "").2.success = true ∧
    (executeCode [] 0 0 "console.log(typeof x); x = 1" Lang.javascript "").2.output = "undefined\n1" ∧
    (executeCode (executeCode [] 0 0 "console.log(typeof x); x = 1" Lang.javascript "").1
        0 0 "console.log(typeof x); x = 1" Lang.javascript "").2.success = true ∧
    (executeCode (executeCode [] 0 0 "console.log(typeof x); x = 1" Lang.javascript "").1
        0 0 "console.log(typeof x); x = 1" Lang.javascript "").2.output = "number\n1" ∧
    ("undefined\n1" : String) ≠ "number\n1" := by
  refine ⟨by decide, by decide, by decide, by decide, by decide⟩

/-- C2: the fresh-SandboxContext claim fails on the code.  The sandbox is
built once in the constructor; an Execute call that assigns a global
leaves it in the shared store, and a later call observes it, so the
context is reused, not created fresh and destroyed per call. -/
theorem c2_sandbox_state_persists_across_calls :
    (executeCode [] 0 0 "y = 7" Lang.javascript "").1 = [("y", JSValue.num 7)] ∧
    [("y", JSValue.num 7)] ≠ ([] : Store) ∧
    (executeCode [("y", JSValue.num 7)] 0 0 "console.log(typeof y)" Lang.javascript "").2.output
      = "number" ∧
    (executeCode [] 0 0 "console.log(typeof y)" Lang.javascript "").2.output = "undefined" := by
  refine ⟨by rfl, by simp, by decide, by decide⟩

/-- C3: the claim that captured output survives a fault fails on the code.  For
`console.log("hi"); nope` the engine captures the line `hi` before the
`ReferenceError`, but the capture array is local to `executeJavaScript`
and the outer `output` variable of `executeCode` is still the empty array
in the catch branch, so the failing result's `output` is `""`, not
`"hi"`. -/
theorem c3_partial_output_discarded_on_fault :
    (executeCode [] 0 0 "console.log(\"hi\"); nope" Lang.javascript "").2.success = false ∧
    (executeCode [] 0 0 "console.log(\"hi\"); nope" Lang.javascript "").2.error
      = some "nope is not defined" ∧
    (executeCode [] 0 0 "console.log(\"hi\"); nope" Lang.javascript "").2.output = "" ∧
    (vmRun [] "console.log(\"hi\"); nope").events.map consoleLine = ["hi"] ∧
    joinNL ["hi"] ≠ "" := by
  refine ⟨by decide, by decide, by decide, by decide, by decide⟩

/-- C4: for every request, `executeCode` returns a result (it is a total
function of the embedding) and `success` is `true` exactly when `error`
is `null`: both return branches set the two fields consistently. -/
theorem c4_success_iff_no_error (st : Store) (t0 t1 : Nat) (code : String) (lang : Lang)
    (input : String) :
    ((executeCode st t0 t1 code lang input).2.success = true) ↔
    ((executeCode st t0 t1 code lang input).2.error = none) := by
  simp only [executeCode]
  repeat' split
  all_goals simp

/-- C5: the value formatter is total (a Lean function on the value model)
and agrees pointwise with the spec's case analysis: null-like to
`"null"`, undefined-like to `"undefined"`, structured values to the
indented serialization when serializable and to the default string
conversion otherwise, everything else to direct string coercion. -/
theorem c5_formatOutput_matches_spec (v : JSValue) : formatOutput v = formatOutputSpec v := by
  cases v with
  | obj ser ts => cases ser <;> rfl
  | _ => rfl

/-- C6 counterexample: the idempotence claim fails as stated.  `format`
of the already-canonical JSON text `1` returns the code unchanged but with
the constant non-empty change log, so the second pass — `formatCode` of
the same code `1` — again reports a non-empty `changes`, and an empty
`changes` does not coincide with "no transformation applied". -/
theorem c6_format_json_second_pass_changes_nonempty :
    formatCode "1" Lang.json
      = .ok ⟨"1", ["Formatted JSON with proper indentation"]⟩ ∧
    formatCode ((⟨"1", ["Formatted JSON with proper indentation"]⟩ : FormatResult)).code Lang.json
      = .ok ⟨"1", ["Formatted JSON with proper indentation"]⟩ ∧
    (["Formatted JSON with proper indentation"] : List String) ≠ [] := by
  refine ⟨by rfl, by rfl, by simp⟩

/-- C6 amended: idempotence with an empty second-pass change log holds
for `javascript` only, where moreover `changes` is empty exactly when the
code was returned unchanged; for `json`, `html` and `css` every successful
`formatCode` returns a fixed non-empty one-element `changes` list, so a
second pass never reports an empty change log and an empty `changes` does
not characterise "no transformation applied" for those languages. -/
theorem c6_format_idempotence_amended :
    (∀ code r, formatCode code Lang.javascript = .ok r →
      formatCode r.code Lang.javascript = .ok ⟨r.code, []⟩) ∧
    (∀ code : String, (formatJavaScript code).changes = [] ↔ (formatJavaScript code).code = code) ∧
    (∀ code r, formatCode code Lang.json = .ok r →
      r.changes = ["Formatted JSON with proper indentation"]) ∧
    (∀ code r, formatCode code Lang.html = .ok r →
      r.changes = ["Added line breaks between HTML tags"]) ∧
    (∀ code r, formatCode code Lang.css = .ok r →
      r.changes = ["Added proper CSS formatting"]) := by
  refine ⟨?_, ?_, ?_, ?_, ?_⟩
  · intro code r h
    simp only [formatCode, Except.ok.injEq] at h
    subst h
    simp only [formatCode, Except.ok.injEq]
    by_cases hc : (!strEndsWith1 (strTrim code) ';' && !strEndsWith1 (strTrim code) rbrace) = true
    · simp only [formatJavaScript, hc, if_true]
      have h2 := strTrim_append_semi_endsWith code
      simp [formatJavaScript, h2]
    · simp only [Bool.not_eq_true] at hc
      simp [formatJavaScript, hc]
  · intro code
    by_cases hc : (!strEndsWith1 (strTrim code) ';' && !strEndsWith1 (strTrim code) rbrace) = true
    · simp only [formatJavaScript, hc, if_true]
      simp [append_semi_ne code]
    · simp only [Bool.not_eq_true] at hc
      simp [formatJavaScript, hc]
  · intro code r h
    cases hp : jsonParse code with
    | ok v =>
      simp [formatCode, formatJSON, hp] at h
      simp [← h]
    | error m => simp [formatCode, formatJSON, hp] at h
  · intro code r h
    simp only [formatCode, Except.ok.injEq] at h
    simp [← h, formatHTML]
  · intro code r h
    simp only [formatCode, Except.ok.injEq] at h
    simp [← h, formatCSS]

/-- C6 witness: the amended theorem applied at concrete inputs — a second
javascript pass on the formatted result of `xx` makes no change, and a
successful json format of `1` carries the constant change log. -/
theorem c6_format_idempotence_amended_witness :
    formatCode ((⟨"xx;", ["Added missing semicolon"]⟩ : FormatResult)).code Lang.javascript
      = .ok ⟨"xx;", []⟩ ∧
    (⟨"1", ["Formatted JSON with proper indentation"]⟩ : FormatResult).changes
      = ["Formatted JSON with proper indentation"] :=
  ⟨c6_format_idempotence_amended.1 "xx" ⟨"xx;", ["Added missing semicolon"]⟩ (by rfl),
   c6_format_idempotence_amended.2.2.1 "1" ⟨"1", ["Formatted JSON with proper indentation"]⟩ (by rfl)⟩

/-- C7 counterexample: the verbatim-error claim fails as stated.  For the
malformed input consisting of a lone opening brace, the parser message is
`Unexpected end of JSON input`, but `ExecutionResult.error` is that
message with the `Invalid JSON: ` prefix prepended by `executeJSON`, so
the surfaced error is not the parser's message unmodified. -/
theorem c7_json_error_not_verbatim :
    jsonParse "\x7b" = Except.error "Unexpected end of JSON input" ∧
    (executeCode [] 0 0 "\x7b" Lang.json "").2.success = false ∧
    (executeCode [] 0 0 "\x7b" Lang.json "").2.error
      = some "Invalid JSON: Unexpected end of JSON input" ∧
    some ("Invalid JSON: Unexpected end of JSON input")
      ≠ some "Unexpected end of JSON input" := by
  refine ⟨by rfl, by decide, by decide, by simp⟩

/-- C7 amended: for every json input within the length limit, a parse
failure with message `m` yields `success = false` and
`error = "Invalid JSON: " ++ m` (the parser message with a fixed prefix,
not verbatim), with empty output; a successful parse yields
`success = true` and an output embedding the canonically re-serialized
indented form in a fenced block. -/
theorem c7_json_executor_amended (st : Store) (t0 t1 : Nat) (code input : String)
    (hlen : code.length ≤ maxCodeLength) :
    (∀ m, jsonParse code = .error m →
      (executeCode st t0 t1 code Lang.json input).2.success = false ∧
      (executeCode st t0 t1 code Lang.json input).2.error = some ("Invalid JSON: " ++ m) ∧
      (executeCode st t0 t1 code Lang.json input).2.output = "") ∧
    (∀ v, jsonParse code = .ok v →
      (executeCode st t0 t1 code Lang.json input).2.success = true ∧
      (executeCode st t0 t1 code Lang.json input).2.error = none ∧
      (executeCode st t0 t1 code Lang.json input).2.output =
        "Valid JSON:" ++ "\n" ++ ("```json" ++ "\n" ++
          (jstringify (code.data.length + 1) v ++ "\n" ++ "```"))) := by
  have hnl : ¬ (code.length > maxCodeLength) := Nat.not_lt.mpr hlen
  constructor
  · intro m hm
    refine ⟨?_, ?_, ?_⟩ <;>
      simp [executeCode, hnl, executeJSON, hm, joinNL, joinSep]
  · intro v hv
    refine ⟨?_, ?_, ?_⟩ <;>
      simp [executeCode, hnl, executeJSON, hv, joinNL, joinSep]

/-- C7 witness: the amended theorem applied to the well-formed input
`[1,2]`, whose parse succeeds and whose output embeds the indented
re-serialization. -/
theorem c7_json_executor_amended_witness :
    ("[1,2]" : String).length ≤ maxCodeLength ∧
    jsonParse "[1,2]" = .ok (JValue.jarr [.jnum 1, .jnum 2]) ∧
    jstringify ("[1,2]".data.length + 1) (JValue.jarr [.jnum 1, .jnum 2]) = "[\n  1,\n  2\n]" ∧
    (executeCode [] 0 0 "[1,2]" Lang.json "").2.success = true ∧
    (executeCode [] 0 0 "[1,2]" Lang.json "").2.output =
      "Valid JSON:" ++ "\n" ++ ("```json" ++ "\n" ++
        (jstringify ("[1,2]".data.length + 1) (JValue.jarr [.jnum 1, .jnum 2]) ++ "\n" ++ "```")) :=
  ⟨by decide, by rfl, by rfl,
   ((c7_json_executor_amended [] 0 0 "[1,2]" "" (by decide)).2
     (JValue.jarr [.jnum 1, .jnum 2]) (by rfl)).1,
   ((c7_json_executor_amended [] 0 0 "[1,2]" "" (by decide)).2
     (JValue.jarr [.jnum 1, .jnum 2]) (by rfl)).2.2⟩

/-- C8 counterexample: the python-stub claim fails as stated for code
longer than `maxCodeLength`: the length check precedes the dispatch, so a
10 001-character python request returns `success = false` with the
code-too-long error, not `success = true`. -/
theorem c8_python_long_code_fails :
    (executeCode [] 0 0 longCode Lang.python "").2.success = false ∧
    (executeCode [] 0 0 longCode Lang.python "").2.error =
      some ("Code too long. Maximum allowed: " ++ toString maxCodeLength ++ " characters") := by
  have h : longCode.length = 10001 := by
    show (List.replicate 10001 'a').length = 10001
    rw [List.length_replicate]
  constructor <;> simp [executeCode, h, maxCodeLength]

/-- C8 amended: for every code string within the length limit and every
input, Execute with language python succeeds, reports no error, leaves
the sandbox store untouched, and returns the fixed not-yet-implemented
notice followed by the echo of the code and the input. -/
theorem c8_python_stub_amended (st : Store) (t0 t1 : Nat) (code input : String)
    (hlen : code.length ≤ maxCodeLength) :
    (executeCode st t0 t1 code Lang.python input).1 = st ∧
    (executeCode st t0 t1 code Lang.python input).2.success = true ∧
    (executeCode st t0 t1 code Lang.python input).2.error = none ∧
    (executeCode st t0 t1 code Lang.python input).2.output =
      "Python execution is not yet implemented in this demo version." ++ "\n" ++
        ("Code received:" ++ "\n" ++ (code ++ "\n" ++ ("Input received: " ++ input))) := by
  have hnl : ¬ (code.length > maxCodeLength) := Nat.not_lt.mpr hlen
  refine ⟨?_, ?_, ?_, ?_⟩ <;>
    simp [executeCode, hnl, executePython, joinNL, joinSep]

/-- C8 witness: the amended theorem applied to the request
`(print(1), python, x)`. -/
theorem c8_python_stub_amended_witness :
    ("print(1)" : String).length ≤ maxCodeLength ∧
    (executeCode [] 0 0 "print(1)" Lang.python "x").2.success = true ∧
    (executeCode [] 0 0 "print(1)" Lang.python "x").2.output =
      "Python execution is not yet implemented in this demo version." ++ "\n" ++
        ("Code received:" ++ "\n" ++ ("print(1)" ++ "\n" ++ ("Input received: " ++ "x"))) :=
  ⟨by decide,
   (c8_python_stub_amended [] 0 0 "print(1)" "x" (by decide)).2.1,
   (c8_python_stub_amended [] 0 0 "print(1)" "x" (by decide)).2.2.2⟩

/-- C9 counterexample: the timing-field claim fails as stated.  The
result's timing field is named `executionTime` (there is no
`executionTimeMs` field in the source result object) and its value is the
string `5ms` — elapsed count with the unit suffix — which is not a bare
integer numeral. -/
theorem c9_execution_time_not_integer_field :
    (executeCode [] 0 5 "1" Lang.json "").2.executionTime = "5ms" ∧
    isDigitsOnly "5ms" = false ∧
    isDigitsOnly (toString (5 : Nat)) = true := by
  refine ⟨by decide, by decide, by decide⟩

/-- C9 amended: every ExecutionResult carries the timing in the field
named `executionTime`, whose value is the decimal rendering of the
elapsed wall-clock milliseconds (end reading minus start reading) with
the `ms` suffix appended, for every language and on both the success and
the failure path. -/
theorem c9_execution_time_string_amended (st : Store) (t0 t1 : Nat) (code : String)
    (lang : Lang) (input : String) :
    (executeCode st t0 t1 code lang input).2.executionTime = toString (t1 - t0) ++ "ms" := by
  simp only [executeCode]
  repeat' split
  all_goals rfl

/-- C10: there is a code string — `console.log("a: b")` — that is valid
JavaScript (its javascript execution succeeds), mentions neither
`interface` nor `type`, but contains a colon; the colon makes
`executeTypeScript` apply the textual type-annotation strip, which
rewrites the string literal, so the typescript output `a` differs from
the javascript output `a: b` for the same code. -/
theorem c10_typescript_colon_divergence :
    includesSub "console.log(\"a: b\")" ":" = true ∧
    includesSub "console.log(\"a: b\")" "interface" = false ∧
    includesSub "console.log(\"a: b\")" "type" = false ∧
    (executeCode [] 0 0 "console.log(\"a: b\")" Lang.javascript "").2.success = true ∧
    (executeCode [] 0 0 "console.log(\"a: b\")" Lang.javascript "").2.output = "a: b" ∧
    (executeCode [] 0 0 "console.log(\"a: b\")" Lang.typescript "").2.success = true ∧
    (executeCode [] 0 0 "console.log(\"a: b\")" Lang.typescript "").2.output = "a" ∧
    ("a: b" : String) ≠ "a" := by
  refine ⟨by decide, by decide, by decide, by decide, by decide, by decide, by decide, by simp⟩

/-- C4 witness: the success/error equivalence instantiated at the
concrete request `(1, json, "")`. -/
theorem c4_success_iff_no_error_witness :
    ((executeCode [] 0 0 "1" Lang.json "").2.success = true) ↔
    ((executeCode [] 0 0 "1" Lang.json "").2.error = none) :=
  c4_success_iff_no_error [] 0 0 "1" Lang.json ""

/-- C5 witness: the formatter/spec agreement instantiated at a concrete
non-serializable structured value. -/
theorem c5_formatOutput_matches_spec_witness :
    formatOutput (JSValue.obj none "[object Object]")
      = formatOutputSpec (JSValue.obj none "[object Object]") :=
  c5_formatOutput_matches_spec (JSValue.obj none "[object Object]")

/-- C9 witness: the timing-field equation instantiated at the concrete
request `(1, json, "")` with clock readings 2 and 7. -/
theorem c9_execution_time_string_amended_witness :
    (executeCode [] 2 7 "1" Lang.json "").2.executionTime = toString (7 - 2 : Nat) ++ "ms" :=
  c9_execution_time_string_amended [] 2 7 "1" Lang.json ""
